import Mathlib

set_option maxRecDepth 8000

/-!
# Invoice & PO matcher — shallow embedding

A shallow embedding of the reconciliation core of `src/app.py`:
item normalization/aggregation (`normalize_and_aggregate_items`,
`get_normalized_dict`), the checklist summary (`generate_match_summary`)
and the narrative summary (`generate_agent_summary`).

Python floats are modelled as rationals (`ℚ`); Python strings as Lean
`String`/`List Char` with explicit models of `strip`, `lower`, `replace`
and the `in` substring test; heterogeneous JSON field values as `PyVal`
(number, string or JSON null), with a missing key modelled by
`Option PyVal = none`.  A Python expression that may raise an uncaught
exception is modelled by an `Option` result, `none` meaning "raises".
-/

namespace InvoicePO

/-- A heterogeneous JSON-ish field value as delivered by the extractor:
a number, a string, or null. -/
inductive PyVal where
  | num (q : ℚ)
  | str (s : String)
  | null
deriving DecidableEq, Repr

/-- ASCII whitespace recognised by Python's `str.strip()`. -/
def isSpaceC (c : Char) : Bool :=
  decide (c.toNat = 32 ∨ c.toNat = 9 ∨ c.toNat = 10 ∨ c.toNat = 13 ∨
          c.toNat = 11 ∨ c.toNat = 12)

/-- Model of Python `str.lstrip()` on a character list. -/
def stripL (l : List Char) : List Char := l.dropWhile isSpaceC

/-- Model of Python `str.rstrip()` on a character list. -/
def stripR (l : List Char) : List Char := (l.reverse.dropWhile isSpaceC).reverse

/-- Model of Python `str.strip()` on a character list. -/
def stripC (l : List Char) : List Char := stripR (stripL l)

/-- Model of Python `str.lower()` on one ASCII character. -/
def lowChar (c : Char) : Char :=
  if 65 ≤ c.toNat ∧ c.toNat ≤ 90 then Char.ofNat (c.toNat + 32) else c

/-- Model of Python `str.lower()` on a character list. -/
def lowerL (l : List Char) : List Char := l.map lowChar

/-- Python `str.strip()` on a `String`. -/
def pyStrip (s : String) : String := ⟨stripC s.data⟩

/-- The literal prefix stripped from item keys (`"culture "`). -/
def cultPre : List Char := "culture ".data

/-- The canonical grouping key of a raw description, as computed at
`src/app.py:121-123` and `240-242`: strip, lowercase, then remove one
leading `"culture "` if present. -/
def itemKeyL (d : List Char) : List Char :=
  if cultPre.isPrefixOf (lowerL (stripC d)) then (lowerL (stripC d)).drop 8
  else lowerL (stripC d)

/-- Key computation `itemKeyL` on `String`s. -/
def itemKeyS (d : String) : String := ⟨itemKeyL d.data⟩

/-! ## Python `float()` on strings -/

/-- Numeric value of a digit list (most significant first). -/
def digitsVal (l : List Char) : ℕ :=
  l.foldl (fun a c => a * 10 + (c.toNat - 48)) 0

/-- Parse the mantissa part `digits[.digits]` of a float literal,
returning its value and the unconsumed remainder; fails when no digit is
present. -/
def parseMant (l : List Char) : Option (ℚ × List Char) :=
  let ip := l.takeWhile Char.isDigit
  let r1 := l.dropWhile Char.isDigit
  match r1 with
  | '.' :: r2 =>
    let fp := r2.takeWhile Char.isDigit
    let r3 := r2.dropWhile Char.isDigit
    if ip.isEmpty ∧ fp.isEmpty then Option.none
    else some (mkRat (digitsVal (ip ++ fp)) (10 ^ fp.length), r3)
  | _ => if ip.isEmpty then Option.none else some (mkRat (digitsVal ip) 1, r1)

/-- Parse an optional exponent part `e[+|-]digits` which must consume the
whole remainder. -/
def parseExp (l : List Char) : Option ℤ :=
  match l with
  | [] => some 0
  | e :: r =>
    if e = 'e' ∨ e = 'E' then
      match r with
      | '+' :: d => if d ≠ [] ∧ d.all Char.isDigit then some (digitsVal d : ℤ) else Option.none
      | '-' :: d => if d ≠ [] ∧ d.all Char.isDigit then some (-(digitsVal d : ℤ)) else Option.none
      | d => if d ≠ [] ∧ d.all Char.isDigit then some (digitsVal d : ℤ) else Option.none
    else Option.none

/-- Power `10^e` for an integer exponent, written kernel-friendly. -/
def powTen (e : ℤ) : ℚ :=
  if 0 ≤ e then mkRat ((10 : ℤ) ^ e.toNat) 1 else mkRat 1 ((10 : ℕ) ^ (-e).toNat)

/-- Parse an unsigned float literal (mantissa then exponent). -/
def parseUns (l : List Char) : Option ℚ := do
  let (m, r) ← parseMant l
  let e ← parseExp r
  some (m * powTen e)

/-- Parse a signed float literal. -/
def parseSigned (l : List Char) : Option ℚ :=
  match l with
  | '+' :: r => parseUns r
  | '-' :: r => (parseUns r).map Neg.neg
  | r => parseUns r

/-- Model of Python `float(s)` for a string `s`: surrounding whitespace is
ignored, then a decimal literal is parsed; `none` models a raised
`ValueError`. -/
def pyFloatStr (s : String) : Option ℚ := parseSigned (stripC s.data)

/-- Model of Python `s.replace(',', '.')`. -/
def commaToDot (s : String) : String :=
  ⟨s.data.map (fun c => if c = ',' then '.' else c)⟩

/-- Model of Python `float(v)` on a field value: numbers pass through,
strings are parsed, `None` raises (`none`). -/
def pyFloat (v : PyVal) : Option ℚ :=
  match v with
  | .num q => some q
  | .str s => pyFloatStr s
  | .null => Option.none

/-- Model of Python `float(str(v).replace(',', '.'))`: for a number,
`str` then `float` round-trips; for a string, commas become periods
before parsing; for `None`, `str(None) = "None"` fails to parse. -/
def pyFloatComma (v : PyVal) : Option ℚ :=
  match v with
  | .num q => some q
  | .str s => pyFloatStr (commaToDot s)
  | .null => Option.none

/-! ## Raw items and aggregation (`src/app.py:111-135`, `235-255`) -/

/-- One raw line item as delivered by the extractor.  A missing
`description` key is modelled as `""` (both are falsy, so both are
skipped); missing `quantity`/`price` keys are `Option.none` (the code
defaults them to `0` / `0.0`). -/
structure RawItem where
  description : String
  quantity : Option PyVal
  price : Option PyVal
deriving DecidableEq, Repr

/-- Model of `float(item.get("quantity", 0))` — the quantity side of the joint
parse at `src/app.py:128`; no comma replacement. -/
def qFloatOf (q : Option PyVal) : Option ℚ := pyFloat (q.getD (.num 0))

/-- Model of `float(str(item.get("price", 0.0)).replace(',', '.'))` — the price
side of the joint parse at `src/app.py:129`. -/
def pFloatOf (p : Option PyVal) : Option ℚ := pyFloatComma (p.getD (.num 0))

/-- The joint `try` block of `src/app.py:127-131`: if parsing either the
quantity or the price raises, **both** degrade to `0`. -/
def occQP (q p : Option PyVal) : ℚ × ℚ :=
  match qFloatOf q, pFloatOf p with
  | some a, some b => (a, b)
  | _, _ => (0, 0)

/-- One aggregation accumulator cell: the defaultdict value
`{"quantity": 0, "description": "", "price": 0.0}`. -/
structure Entry where
  quantity : ℚ
  description : String
  price : ℚ
deriving DecidableEq, Repr

/-- The defaultdict's default value. -/
def entry0 : Entry := ⟨0, "", 0⟩

/-- Association-list lookup modelling `desc_key in normalized`. -/
def lookupE (m : List (String × Entry)) (k : String) : Option Entry :=
  match m with
  | [] => Option.none
  | (k', e) :: t => if k' = k then some e else lookupE t k

/-- The net effect of one loop iteration on the accumulator cell
(`src/app.py:125-134`): keep the first raw description, add the parsed
quantity, and overwrite the price only when the parsed price is
positive. -/
def updE (desc : String) (q p : ℚ) (e : Entry) : Entry :=
  ⟨e.quantity + q,
   if e.description = "" then desc else e.description,
   if 0 < p then p else e.price⟩

/-- Insertion-ordered update of the defaultdict: update the existing cell
in place, or append a fresh default cell at the end (Python dicts
preserve insertion order). -/
def upsert (m : List (String × Entry)) (k : String) (f : Entry → Entry) :
    List (String × Entry) :=
  match m with
  | [] => [(k, f entry0)]
  | (k', e) :: t => if k' = k then (k', f e) :: t else (k', e) :: upsert t k f

/-- One iteration of the aggregation loop (`src/app.py:119-134`): items
with a falsy description are skipped; otherwise the cell of the item's
key is updated. -/
def aggStep (m : List (String × Entry)) (i : RawItem) : List (String × Entry) :=
  if i.description = "" then m
  else
    upsert m (itemKeyS i.description)
      (updE i.description (occQP i.quantity i.price).1 (occQP i.quantity i.price).2)

/-- Function `get_normalized_dict` (`src/app.py:235-255`): the insertion-ordered
normalized mapping from canonical key to accumulator cell.  The loop
body is identical to the one in `normalize_and_aggregate_items`. -/
def get_normalized_dict (items : List RawItem) : List (String × Entry) :=
  items.foldl aggStep []

/-- Function `normalize_and_aggregate_items` (`src/app.py:111-135`):
`list(normalized.values())`. -/
def normalize_and_aggregate_items (items : List RawItem) : List Entry :=
  (get_normalized_dict items).map Prod.snd

/-! ## Documents, findings and the two summaries (`src/app.py:257-376`) -/

/-- One extracted document (`invoice_data` / `po_data`).  A missing or
null string field is `Option.none`; `total` is a raw field value with
`Option.none` for a missing key. -/
structure Doc where
  invoice_no : Option String
  po_no : Option String
  vendor : Option String
  total : Option PyVal
  items : List RawItem
deriving DecidableEq, Repr

/-- Finding categories of the reconciliation report. -/
inductive Category where
  | PoNumber | Vendor | Total | ItemQuantity | ItemLineTotal | UnmatchedItem
deriving DecidableEq, Repr

/-- Finding severities. -/
inductive Severity where
  | Match | Mismatch | Warning
deriving DecidableEq, Repr

/-- Overall reconciliation status. -/
inductive Status where
  | Approved | NeedsReview
deriving DecidableEq, Repr

/-- One comparison outcome; `key` is the canonical item key for
per-item findings and `""` for document-level ones. -/
structure Finding where
  category : Category
  severity : Severity
  key : String
deriving DecidableEq, Repr

/-- Model of `str(raw).strip() if raw is not None else "N/A"`
(`src/app.py:262-263`). -/
def poNoNorm (o : Option String) : String :=
  match o with
  | some s => pyStrip s
  | Option.none => "N/A"

/-- The PO-number finding (`src/app.py:264-268`): match iff the trimmed
strings are equal and the invoice side is not `"N/A"`. -/
def poNumberFinding (a b : Option String) : Finding :=
  if poNoNorm a = poNoNorm b ∧ poNoNorm a ≠ "N/A" then ⟨.PoNumber, .Match, ""⟩
  else ⟨.PoNumber, .Mismatch, ""⟩

/-- Model of `str(raw).strip().lower().replace(' ', '') if raw else ""`
(`src/app.py:272-273`); an absent or empty vendor normalizes to `[]`. -/
def vendorNorm (o : Option String) : List Char :=
  match o with
  | some s => (lowerL (stripC s.data)).filter (fun c => !(c = ' '))
  | Option.none => []

/-- Python's substring test `needle in hay` on character lists. -/
def isSubChars (needle : List Char) : List Char → Bool
  | [] => needle.isEmpty
  | c :: t => needle.isPrefixOf (c :: t) || isSubChars needle t

/-- The vendor finding (`src/app.py:274-278`): match iff both normalized
names are non-empty and one contains the other. -/
def vendorFinding (a b : Option String) : Finding :=
  let x := vendorNorm a
  let y := vendorNorm b
  if x ≠ [] ∧ y ≠ [] ∧ (isSubChars x y || isSubChars y x) then ⟨.Vendor, .Match, ""⟩
  else ⟨.Vendor, .Mismatch, ""⟩

/-- Model of `float(str(data.get("total", 0.0)).replace(',','.'))` — the
**unguarded** total parse of `src/app.py:280-281` and `324-325`;
`Option.none` models the uncaught `ValueError`. -/
def totalParse (t : Option PyVal) : Option ℚ := pyFloatComma (t.getD (.num 0))

/-- The guarded total parse of the display path (`src/app.py:218-222`):
identical except that a parse failure degrades to `0.0`. -/
def display_total_float (t : Option PyVal) : ℚ := (totalParse t).getD 0

/-- Absolute value `|q|` written kernel-friendly. -/
def ratAbs (q : ℚ) : ℚ := if q < 0 then -q else q

/-- The per-item finding of the summary loop (`src/app.py:296-310`) for
one invoice key and cell, given the PO mapping. -/
def itemFinding (poMap : List (String × Entry)) (k : String) (e : Entry) : Finding :=
  match lookupE poMap k with
  | some pe =>
    if pe.quantity + mkRat 1 1000 < e.quantity then ⟨.ItemQuantity, .Mismatch, k⟩
    else if e.quantity < pe.quantity - mkRat 1 1000 then ⟨.ItemQuantity, .Warning, k⟩
    else ⟨.ItemQuantity, .Match, k⟩
  | Option.none => ⟨.UnmatchedItem, .Mismatch, k⟩

/-- Status rule: `issues` is non-empty iff a mismatch-severity finding was produced;
the status line of `src/app.py:312-315`. -/
def statusOf (fs : List Finding) : Status :=
  if fs.any (fun f => f.severity = .Mismatch) then .NeedsReview else .Approved

/-- The total-amount finding (`src/app.py:282-286`) given the two parsed
totals. -/
def totalFinding (it pt : ℚ) : Finding :=
  if ratAbs (it - pt) < mkRat 1 100 then ⟨.Total, .Match, ""⟩ else ⟨.Total, .Mismatch, ""⟩

/-- Function `generate_match_summary` (`src/app.py:257-317`), abstracted to the
findings it reports and the final status.  `Option.none` models the
uncaught `ValueError` of the unguarded total parse at lines 280-281. -/
def generate_match_summary (inv po : Doc) : Option (List Finding × Status) :=
  match totalParse inv.total, totalParse po.total with
  | some it, some pt =>
    let f1 := poNumberFinding inv.po_no po.po_no
    let f2 := vendorFinding inv.vendor po.vendor
    let f3 := totalFinding it pt
    let invMap := get_normalized_dict inv.items
    let poMap := get_normalized_dict po.items
    let itemFs := invMap.map (fun p => itemFinding poMap p.1 p.2)
    let fs := f1 :: f2 :: f3 :: itemFs
    some (fs, statusOf fs)
  | _, _ => Option.none

/-- Function `generate_agent_summary` (`src/app.py:320-376`), abstracted to the
list of discrepancy details it renders (in order); the narrative states
the approval sentence exactly when this list is empty.  `Option.none`
models the uncaught `ValueError` of the total parse at lines 324-325. -/
def generate_agent_summary (inv po : Doc) : Option (List Finding) :=
  match totalParse inv.total, totalParse po.total with
  | some it, some pt =>
    let totFs : List Finding :=
      if mkRat 1 100 ≤ ratAbs (it - pt) then [⟨.Total, .Mismatch, ""⟩] else []
    let invMap := get_normalized_dict inv.items
    let poMap := get_normalized_dict po.items
    let itemFs := invMap.filterMap (fun p =>
      match lookupE poMap p.1 with
      | some pe =>
        if pe.quantity + mkRat 1 1000 < p.2.quantity then
          some ⟨.ItemQuantity, .Mismatch, p.1⟩
        else if p.2.quantity < pe.quantity - mkRat 1 1000 then
          some ⟨.ItemQuantity, .Warning, p.1⟩
        else Option.none
      | Option.none => some ⟨.UnmatchedItem, .Mismatch, p.1⟩)
    some (totFs ++ itemFs)
  | _, _ => Option.none

/-- The keys of a document's aggregated items. -/
def docKeys (d : Doc) : List String := (get_normalized_dict d.items).map Prod.fst

/-- The aggregated quantity of key `k` in a document (`0` when absent). -/
def docQty (d : Doc) (k : String) : ℚ :=
  ((lookupE (get_normalized_dict d.items) k).getD entry0).quantity

/-- Modelled from the spec: the code has no line-total tracking at all,
so the stricter variant's accumulated `lineTotal` — the "sum over
contributing raw items of `parsedQuantity × parsedUnitPrice` for that
occurrence" (spec §3) — is defined here from the spec's words, for
stating what the code does not compute. -/
def specLineTotal (items : List RawItem) (k : String) : ℚ :=
  (items.map (fun i =>
    if i.description ≠ "" ∧ itemKeyS i.description = k then
      (occQP i.quantity i.price).1 * (occQP i.quantity i.price).2
    else 0)).sum

/-! ## Concrete sample documents -/

/-- An invoice whose extracted `total` is the unparsable string `"abc"`. -/
def invTotAbc : Doc := ⟨Option.none, Option.none, Option.none, some (.str "abc"), []⟩

/-- A document with no usable fields at all. -/
def docEmpty : Doc := ⟨Option.none, Option.none, Option.none, Option.none, []⟩

/-- Invoice billing 5 units of `x` at 100 (line total 500). -/
def invPart : Doc :=
  ⟨some "I1", some "P1", some "V", some (.num 500), [⟨"x", some (.num 5), some (.num 100)⟩]⟩

/-- PO ordering 10 units of `x` at 1 (line total 10), same header data. -/
def poPart : Doc :=
  ⟨Option.none, some "P1", some "V", some (.num 500), [⟨"x", some (.num 10), some (.num 1)⟩]⟩

/-- An invoice whose PO number (`"A"`) disagrees with the PO's (`"B"`)
while everything else matches. -/
def invPoMis : Doc := ⟨some "I1", some "A", some "V", some (.num 100), []⟩

/-- The purchase order for `invPoMis`. -/
def poPoMis : Doc := ⟨Option.none, some "B", some "V", some (.num 100), []⟩

/-- Invoice billing 15 Widgets against a PO of 10 (plus a PO-only
Gadget). -/
def invOver : Doc :=
  ⟨some "I", some "P1", some "Acme", some (.num 100),
   [⟨"Widget", some (.num 15), some (.num 2)⟩]⟩

/-- The purchase order for `invOver`. -/
def poOver : Doc :=
  ⟨Option.none, some "P1", some "Acme Corp", some (.num 100),
   [⟨"widget", some (.num 10), some (.num 2)⟩, ⟨"Gadget", some (.num 5), some (.num 1)⟩]⟩

/-- An invoice billing an item that the PO does not list. -/
def invOnly : Doc :=
  ⟨some "I", some "P1", some "V", some (.num 100),
   [⟨"Widget", some (.num 1), some (.num 2)⟩]⟩

/-- A purchase order listing only an item the invoice does not bill. -/
def poOnly : Doc :=
  ⟨Option.none, some "P1", some "V", some (.num 100),
   [⟨"Gadget", some (.num 1), some (.num 2)⟩]⟩

/-- The findings the narrative summary keeps: non-matches other than the
PO-number and vendor checks. -/
def narrKeep (f : Finding) : Bool :=
  !(f.severity = Severity.Match) && !(f.category = Category.PoNumber) &&
    !(f.category = Category.Vendor)

/-! ## Aggregation invariants -/

/-- Parsed-quantity contribution of one raw item to key `k`. -/
def keyQty (k : String) (i : RawItem) : ℚ :=
  if i.description ≠ "" ∧ itemKeyS i.description = k then (occQP i.quantity i.price).1 else 0

/-- Sum of the parsed quantities of the raw items mapping to key `k`. -/
def keyQtySum (items : List RawItem) (k : String) : ℚ := (items.map (keyQty k)).sum

/-- The last positive parsed price among the occurrences of key `k`, if
any (later occurrences take precedence). -/
def lastPosP (k : String) : List RawItem → Option ℚ
  | [] => Option.none
  | i :: t =>
    match lastPosP k t with
    | some p => some p
    | Option.none =>
      if i.description ≠ "" ∧ itemKeyS i.description = k ∧ 0 < (occQP i.quantity i.price).2
      then some (occQP i.quantity i.price).2 else Option.none

/-- The quantity stored for `k` (`0` when the key is absent). -/
def qtyOf (m : List (String × Entry)) (k : String) : ℚ :=
  ((lookupE m k).getD entry0).quantity

/-- The price stored for `k` (`0` when the key is absent). -/
def priceOf (m : List (String × Entry)) (k : String) : ℚ :=
  ((lookupE m k).getD entry0).price

/-- The key list of the accumulator. -/
def keysOf (m : List (String × Entry)) : List String := m.map Prod.fst

/-- The keys of the kept raw items, in input order, with multiplicity. -/
def keptKeys (items : List RawItem) : List String :=
  items.filterMap (fun i =>
    if i.description = "" then Option.none else some (itemKeyS i.description))

/-- Distinct elements in first-occurrence order. -/
def firstSeen (ks : List String) : List String :=
  ks.foldl (fun acc k => if k ∈ acc then acc else acc ++ [k]) []

theorem lookupE_upsert_self (m : List (String × Entry)) (k : String) (f : Entry → Entry) :
    lookupE (upsert m k f) k = some (f ((lookupE m k).getD entry0)) := by
  induction m with
  | nil => simp [upsert, lookupE]
  | cons hd t ih =>
    obtain ⟨k', e⟩ := hd
    by_cases hk : k' = k
    · simp [upsert, lookupE, hk]
    · simp [upsert, lookupE, hk, ih]

theorem lookupE_upsert_ne (m : List (String × Entry)) (k k' : String) (f : Entry → Entry)
    (h : k' ≠ k) : lookupE (upsert m k f) k' = lookupE m k' := by
  have hk' : ¬ (k = k') := fun hh => h hh.symm
  induction m with
  | nil => simp [upsert, lookupE, hk']
  | cons hd t ih =>
    obtain ⟨k'', e⟩ := hd
    by_cases hk : k'' = k
    · subst hk
      simp [upsert, lookupE, hk']
    · simp [upsert, lookupE, hk, ih]

theorem qtyOf_aggStep (m : List (String × Entry)) (i : RawItem) (k : String) :
    qtyOf (aggStep m i) k = qtyOf m k + keyQty k i := by
  unfold aggStep keyQty
  by_cases hd : i.description = ""
  · simp [hd]
  · by_cases hk : itemKeyS i.description = k
    · subst hk
      simp [hd, qtyOf, lookupE_upsert_self, updE]
    · simp [hd, hk, qtyOf, lookupE_upsert_ne _ _ _ _ (fun hh => hk hh.symm)]

theorem qtyOf_foldl (items : List RawItem) :
    ∀ m k, qtyOf (items.foldl aggStep m) k = qtyOf m k + keyQtySum items k := by
  induction items with
  | nil => intro m k; simp [keyQtySum]
  | cons i t ih =>
    intro m k
    have : keyQtySum (i :: t) k = keyQty k i + keyQtySum t k := by
      simp [keyQtySum]
    rw [List.foldl_cons, ih, qtyOf_aggStep, this]
    ring

theorem priceOf_aggStep (m : List (String × Entry)) (i : RawItem) (k : String) :
    priceOf (aggStep m i) k =
      if i.description ≠ "" ∧ itemKeyS i.description = k ∧ 0 < (occQP i.quantity i.price).2
      then (occQP i.quantity i.price).2 else priceOf m k := by
  unfold aggStep
  by_cases hd : i.description = ""
  · simp [hd]
  · by_cases hk : itemKeyS i.description = k
    · subst hk
      by_cases hp : 0 < (occQP i.quantity i.price).2
      · simp [hd, hp, priceOf, lookupE_upsert_self, updE]
      · simp [hd, hp, priceOf, lookupE_upsert_self, updE]
    · simp [hd, hk, priceOf, lookupE_upsert_ne _ _ _ _ (fun hh => hk hh.symm)]

theorem lastPosP_cons (k : String) (i : RawItem) (t : List RawItem) :
    lastPosP k (i :: t) =
      match lastPosP k t with
      | some p => some p
      | Option.none =>
        if i.description ≠ "" ∧ itemKeyS i.description = k ∧ 0 < (occQP i.quantity i.price).2
        then some (occQP i.quantity i.price).2 else Option.none := rfl

theorem priceOf_foldl (items : List RawItem) :
    ∀ m k, priceOf (items.foldl aggStep m) k = (lastPosP k items).getD (priceOf m k) := by
  induction items with
  | nil => intro m k; simp [lastPosP]
  | cons i t ih =>
    intro m k
    rw [List.foldl_cons, ih, lastPosP_cons]
    cases hlt : lastPosP k t with
    | some p => simp
    | none =>
      simp only [Option.getD_none]
      rw [priceOf_aggStep]
      by_cases hc : i.description ≠ "" ∧ itemKeyS i.description = k ∧ 0 < (occQP i.quantity i.price).2
      · simp [hc]
      · simp [hc]

theorem keysOf_upsert (m : List (String × Entry)) (k : String) (f : Entry → Entry) :
    keysOf (upsert m k f) = if k ∈ keysOf m then keysOf m else keysOf m ++ [k] := by
  induction m with
  | nil => simp [upsert, keysOf]
  | cons hd t ih =>
    obtain ⟨k', e⟩ := hd
    by_cases hk : k' = k
    · subst hk
      simp [upsert, keysOf]
    · have hne : ¬ (k = k') := fun hh => hk hh.symm
      have hup : upsert ((k', e) :: t) k f = (k', e) :: upsert t k f := by
        simp [upsert, hk]
      rw [hup]
      simp only [keysOf, List.map_cons] at ih ⊢
      by_cases hm : k ∈ List.map Prod.fst t
      · simp [hm, hne, ih]
      · simp [hm, hne, ih]

theorem keysOf_foldl (items : List RawItem) :
    ∀ m, keysOf (items.foldl aggStep m) =
      (keptKeys items).foldl (fun acc k => if k ∈ acc then acc else acc ++ [k]) (keysOf m) := by
  induction items with
  | nil => intro m; simp [keptKeys]
  | cons i t ih =>
    intro m
    by_cases hd : i.description = ""
    · simp only [List.foldl_cons, aggStep, hd, if_pos rfl]
      rw [ih]
      simp [keptKeys, List.filterMap_cons, hd]
    · simp only [List.foldl_cons]
      rw [ih]
      have h1 : keptKeys (i :: t) = itemKeyS i.description :: keptKeys t := by
        simp [keptKeys, List.filterMap_cons, hd]
      have h2 : keysOf (aggStep m i) =
          if itemKeyS i.description ∈ keysOf m then keysOf m
          else keysOf m ++ [itemKeyS i.description] := by
        simp only [aggStep, hd, if_neg hd]
        exact keysOf_upsert m _ _
      rw [h1, List.foldl_cons, h2]

theorem keysOf_gnd (items : List RawItem) :
    keysOf (get_normalized_dict items) = firstSeen (keptKeys items) := by
  unfold get_normalized_dict firstSeen
  rw [keysOf_foldl]
  rfl

theorem firstSeen_nodup (ks : List String) : (firstSeen ks).Nodup := by
  suffices h : ∀ acc : List String, acc.Nodup →
      (ks.foldl (fun acc k => if k ∈ acc then acc else acc ++ [k]) acc).Nodup by
    exact h [] List.nodup_nil
  induction ks with
  | nil => intro acc hacc; simpa using hacc
  | cons k t ih =>
    intro acc hacc
    rw [List.foldl_cons]
    by_cases hm : k ∈ acc
    · simpa [hm] using ih acc hacc
    · refine ih _ ?_
      simp only [hm, if_neg, if_false]
      rw [List.nodup_append]
      exact ⟨hacc, List.nodup_singleton k, by simpa using hm⟩

theorem lookupE_of_mem (m : List (String × Entry)) (hnd : (keysOf m).Nodup)
    (k : String) (e : Entry) (h : (k, e) ∈ m) : lookupE m k = some e := by
  induction m with
  | nil => cases h
  | cons hd t ih =>
    obtain ⟨k', e'⟩ := hd
    have hnd' : k' ∉ keysOf t ∧ (keysOf t).Nodup := by
      have h2 : (k' :: keysOf t).Nodup := hnd
      rw [List.nodup_cons] at h2
      exact h2
    rcases List.mem_cons.mp h with h1 | h1
    · have h1a : k = k' := congrArg Prod.fst h1
      have h1b : e = e' := congrArg Prod.snd h1
      subst h1a
      subst h1b
      simp [lookupE]
    · have hk' : ¬ (k' = k) := by
        intro hkk
        subst hkk
        exact hnd'.1 (by simpa [keysOf] using List.mem_map_of_mem Prod.fst h1)
      simp [lookupE, hk', ih hnd'.2 h1]

theorem gnd_keys_nodup (items : List RawItem) :
    (keysOf (get_normalized_dict items)).Nodup := by
  rw [keysOf_gnd]
  exact firstSeen_nodup _

/-! ## Shape of the two summaries -/

theorem gms_some_elim (inv po : Doc) (fs : List Finding) (st : Status)
    (h : generate_match_summary inv po = some (fs, st)) :
    ∃ it pt, totalParse inv.total = some it ∧ totalParse po.total = some pt ∧
      fs = poNumberFinding inv.po_no po.po_no :: vendorFinding inv.vendor po.vendor ::
        totalFinding it pt ::
        (get_normalized_dict inv.items).map
          (fun p => itemFinding (get_normalized_dict po.items) p.1 p.2) ∧
      st = statusOf fs := by
  unfold generate_match_summary at h
  cases hi : totalParse inv.total with
  | none => rw [hi] at h; cases h
  | some it =>
    cases hp : totalParse po.total with
    | none => rw [hi, hp] at h; cases h
    | some pt =>
      rw [hi, hp] at h
      simp only [Option.some.injEq, Prod.mk.injEq] at h
      exact ⟨it, pt, rfl, rfl, by rw [← h.1], by rw [← h.2, ← h.1]⟩

theorem gas_some_elim (inv po : Doc) (ds : List Finding)
    (h : generate_agent_summary inv po = some ds) :
    ∃ it pt, totalParse inv.total = some it ∧ totalParse po.total = some pt ∧
      ds = (if mkRat 1 100 ≤ ratAbs (it - pt) then [(⟨.Total, .Mismatch, ""⟩ : Finding)] else []) ++
        (get_normalized_dict inv.items).filterMap (fun p =>
          match lookupE (get_normalized_dict po.items) p.1 with
          | some pe =>
            if pe.quantity + mkRat 1 1000 < p.2.quantity then
              some ⟨.ItemQuantity, .Mismatch, p.1⟩
            else if p.2.quantity < pe.quantity - mkRat 1 1000 then
              some ⟨.ItemQuantity, .Warning, p.1⟩
            else Option.none
          | Option.none => some ⟨.UnmatchedItem, .Mismatch, p.1⟩) := by
  unfold generate_agent_summary at h
  cases hi : totalParse inv.total with
  | none => rw [hi] at h; cases h
  | some it =>
    cases hp : totalParse po.total with
    | none => rw [hi, hp] at h; cases h
    | some pt =>
      rw [hi, hp] at h
      simp only [Option.some.injEq] at h
      exact ⟨it, pt, rfl, rfl, h.symm⟩

theorem statusOf_needsReview_of_mismatch (fs : List Finding) (f : Finding)
    (hf : f ∈ fs) (hsev : f.severity = .Mismatch) : statusOf fs = .NeedsReview := by
  unfold statusOf
  rw [if_pos]
  exact List.any_eq_true.mpr ⟨f, hf, by simp [hsev]⟩

theorem statusOf_approved_iff (fs : List Finding) :
    statusOf fs = .Approved ↔ ∀ f ∈ fs, f.severity ≠ .Mismatch := by
  unfold statusOf
  by_cases h : fs.any (fun f => decide (f.severity = .Mismatch)) = true
  · obtain ⟨f, hf, hs⟩ := List.any_eq_true.mp h
    simp only [h, if_true]
    constructor
    · intro hcon; cases hcon
    · intro hall
      exact absurd (of_decide_eq_true hs) (hall f hf)
  · simp only [h, if_false]
    constructor
    · intro _ f hf hsev
      exact h (List.any_eq_true.mpr ⟨f, hf, by simp [hsev]⟩)
    · intro _; rfl

/-! ## Helper lemmas about findings -/

theorem poNumberFinding_category (a b : Option String) :
    (poNumberFinding a b).category = .PoNumber := by
  unfold poNumberFinding
  split <;> rfl

theorem vendorFinding_category (a b : Option String) :
    (vendorFinding a b).category = .Vendor := by
  simp only [vendorFinding]
  split <;> rfl

theorem totalFinding_category (it pt : ℚ) : (totalFinding it pt).category = .Total := by
  unfold totalFinding
  split <;> rfl

theorem itemFinding_category (poMap : List (String × Entry)) (k : String) (e : Entry) :
    (itemFinding poMap k e).category = .ItemQuantity ∨
    (itemFinding poMap k e).category = .UnmatchedItem := by
  unfold itemFinding
  cases lookupE poMap k with
  | some pe =>
    simp only []
    split
    · exact Or.inl rfl
    · split
      · exact Or.inl rfl
      · exact Or.inl rfl
  | none => exact Or.inr rfl

theorem itemFinding_key (poMap : List (String × Entry)) (k : String) (e : Entry) :
    (itemFinding poMap k e).key = k := by
  unfold itemFinding
  cases lookupE poMap k with
  | some pe =>
    simp only []
    split
    · rfl
    · split <;> rfl
  | none => rfl

theorem lookupE_isSome_iff (m : List (String × Entry)) (k : String) :
    (∃ e, lookupE m k = some e) ↔ k ∈ keysOf m := by
  induction m with
  | nil => simp [lookupE, keysOf]
  | cons hd t ih =>
    obtain ⟨k', e'⟩ := hd
    by_cases hk : k' = k
    · subst hk
      simp [lookupE, keysOf]
    · have hne : ¬ (k = k') := fun hh => hk hh.symm
      simp [lookupE, keysOf, hk, hne, ih]

theorem lookupE_eq_none_of_not_mem (m : List (String × Entry)) (k : String)
    (h : k ∉ keysOf m) : lookupE m k = Option.none := by
  cases hl : lookupE m k with
  | none => rfl
  | some e => exact absurd ((lookupE_isSome_iff m k).mp ⟨e, hl⟩) h

/-- Every finding of the match summary is one of the three header
findings or a per-item finding keyed by an aggregated invoice key. -/
theorem gms_mem_category (inv po : Doc) (fs : List Finding) (st : Status)
    (h : generate_match_summary inv po = some (fs, st)) (f : Finding) (hf : f ∈ fs) :
    f.category = .PoNumber ∨ f.category = .Vendor ∨ f.category = .Total ∨
    ((f.category = .ItemQuantity ∨ f.category = .UnmatchedItem) ∧ f.key ∈ docKeys inv) := by
  obtain ⟨it, pt, hi, hp, hfs, hst⟩ := gms_some_elim inv po fs st h
  subst hfs
  rcases List.mem_cons.mp hf with h1 | hf
  · exact Or.inl (h1 ▸ poNumberFinding_category _ _)
  rcases List.mem_cons.mp hf with h1 | hf
  · exact Or.inr (Or.inl (h1 ▸ vendorFinding_category _ _))
  rcases List.mem_cons.mp hf with h1 | hf
  · exact Or.inr (Or.inr (Or.inl (h1 ▸ totalFinding_category _ _)))
  obtain ⟨p, hpmem, hpeq⟩ := List.mem_map.mp hf
  refine Or.inr (Or.inr (Or.inr ⟨hpeq ▸ itemFinding_category _ _ _, ?_⟩))
  rw [← hpeq, itemFinding_key]
  exact List.mem_map_of_mem Prod.fst hpmem

theorem occQP_fail (q p : Option PyVal)
    (h : qFloatOf q = Option.none ∨ pFloatOf p = Option.none) : occQP q p = (0, 0) := by
  unfold occQP
  rcases h with h | h
  · rw [h]
  · rw [h]
    cases qFloatOf q <;> rfl

theorem occQP_ok (q p : Option PyVal) (a b : ℚ)
    (hq : qFloatOf q = some a) (hp : pFloatOf p = some b) : occQP q p = (a, b) := by
  unfold occQP
  rw [hq, hp]

theorem gms_none_of_bad_total (inv po : Doc) (h : totalParse inv.total = Option.none) :
    generate_match_summary inv po = Option.none := by
  unfold generate_match_summary
  rw [h]

/-- The per-item discrepancies of the narrative summary are exactly the
non-Match item findings of the checklist, in order. -/
theorem narr_items_eq (poMap : List (String × Entry)) (l : List (String × Entry)) :
    (l.map (fun p => itemFinding poMap p.1 p.2)).filter narrKeep =
    l.filterMap (fun p =>
      match lookupE poMap p.1 with
      | some pe =>
        if pe.quantity + mkRat 1 1000 < p.2.quantity then
          some ⟨.ItemQuantity, .Mismatch, p.1⟩
        else if p.2.quantity < pe.quantity - mkRat 1 1000 then
          some ⟨.ItemQuantity, .Warning, p.1⟩
        else Option.none
      | Option.none => some ⟨.UnmatchedItem, .Mismatch, p.1⟩) := by
  induction l with
  | nil => rfl
  | cons p t ih =>
    rw [List.map_cons, List.filter_cons, List.filterMap_cons]
    cases hl : lookupE poMap p.1 with
    | none =>
      have hform : itemFinding poMap p.1 p.2 = ⟨.UnmatchedItem, .Mismatch, p.1⟩ := by
        unfold itemFinding
        rw [hl]
      rw [hform]
      simp [narrKeep, ih]
    | some pe =>
      by_cases h1 : pe.quantity + mkRat 1 1000 < p.2.quantity
      · have hform : itemFinding poMap p.1 p.2 = ⟨.ItemQuantity, .Mismatch, p.1⟩ := by
          unfold itemFinding
          rw [hl]
          dsimp only
          rw [if_pos h1]
        rw [hform]
        simp [narrKeep, hl, h1, ih]
      · by_cases h2 : p.2.quantity < pe.quantity - mkRat 1 1000
        · have hform : itemFinding poMap p.1 p.2 = ⟨.ItemQuantity, .Warning, p.1⟩ := by
            unfold itemFinding
            rw [hl]
            dsimp only
            rw [if_neg h1, if_pos h2]
          rw [hform]
          simp [narrKeep, hl, h1, h2, ih]
        · have hform : itemFinding poMap p.1 p.2 = ⟨.ItemQuantity, .Match, p.1⟩ := by
            unfold itemFinding
            rw [hl]
            dsimp only
            rw [if_neg h1, if_neg h2]
          rw [hform]
          simp [narrKeep, hl, h1, h2, ih]

/-! ## Claims -/

/-- Claim **C3 counterexample**: with a PO-number mismatch as the only
discrepancy, the checklist result contains a PoNumber Mismatch finding
and NeedsReview, yet the narrative summary lists no discrepancies at all
(it renders the approval sentence), so it does not list every mismatch
finding of the result. -/
theorem C3_counterexample :
    generate_match_summary invPoMis poPoMis =
      some ([⟨.PoNumber, .Mismatch, ""⟩, ⟨.Vendor, .Match, ""⟩, ⟨.Total, .Match, ""⟩],
            .NeedsReview) ∧
    generate_agent_summary invPoMis poPoMis = some [] := by
  refine ⟨by with_unfolding_all decide, by with_unfolding_all decide⟩

/-- Claim **C3 (amended)**: whenever the checklist succeeds, the narrative's
discrepancy list is exactly the checklist's findings restricted to
non-Match severities **outside** the PO-number and vendor categories
(those two are never narrated), in the same order; the narrative states
the approval sentence exactly when that restriction is empty. -/
theorem C3_narrative_amended (inv po : Doc) (fs : List Finding) (st : Status)
    (h : generate_match_summary inv po = some (fs, st)) :
    generate_agent_summary inv po = some (fs.filter narrKeep) := by
  obtain ⟨it, pt, hi, hp, hfs, hst⟩ := gms_some_elim inv po fs st h
  subst hfs
  unfold generate_agent_summary
  rw [hi, hp]
  dsimp only
  rw [List.filter_cons, List.filter_cons, List.filter_cons]
  have h1 : narrKeep (poNumberFinding inv.po_no po.po_no) = false := by
    simp [narrKeep, poNumberFinding_category]
  have h2 : narrKeep (vendorFinding inv.vendor po.vendor) = false := by
    simp [narrKeep, vendorFinding_category]
  rw [h1, h2]
  by_cases hc : ratAbs (it - pt) < mkRat 1 100
  · have hle : ¬ (mkRat 1 100 ≤ ratAbs (it - pt)) := not_le.mpr hc
    have h3 : narrKeep (totalFinding it pt) = false := by
      unfold totalFinding
      rw [if_pos hc]
      simp [narrKeep]
    simp [h1, h2, h3, hle, narr_items_eq]
  · have hle : mkRat 1 100 ≤ ratAbs (it - pt) := not_lt.mp hc
    have h3 : totalFinding it pt = ⟨.Total, .Mismatch, ""⟩ := by
      unfold totalFinding
      rw [if_neg hc]
    have h4 : narrKeep (totalFinding it pt) = true := by
      rw [h3]
      simp [narrKeep]
    simp [h1, h2, h3, h4, hle, narr_items_eq]
    simp [narrKeep]

/-- Witness for C3 (amended) at a concrete input: the partial-shipment
warning is the one narrated discrepancy; the matched header findings are
dropped. -/
theorem C3_narrative_amended_witness :
    generate_match_summary invPart poPart =
      some ([⟨.PoNumber, .Match, ""⟩, ⟨.Vendor, .Match, ""⟩, ⟨.Total, .Match, ""⟩,
             ⟨.ItemQuantity, .Warning, "x"⟩], .Approved) ∧
    generate_agent_summary invPart poPart =
      some (([⟨.PoNumber, .Match, ""⟩, ⟨.Vendor, .Match, ""⟩, ⟨.Total, .Match, ""⟩,
              ⟨.ItemQuantity, .Warning, "x"⟩] : List Finding).filter narrKeep) :=
  ⟨by with_unfolding_all decide,
   C3_narrative_amended invPart poPart
     [⟨.PoNumber, .Match, ""⟩, ⟨.Vendor, .Match, ""⟩, ⟨.Total, .Match, ""⟩,
      ⟨.ItemQuantity, .Warning, "x"⟩] .Approved (by with_unfolding_all decide)⟩

/-- Claim **C10**: quantity and price of one raw occurrence are parsed
jointly: if parsing either side raises, the occurrence contributes
quantity 0 AND price 0, even when the other field alone would have
parsed (quantity `"abc"` with price `"5"` contributes price 0). -/
theorem C10_joint_quantity_price_parse :
    (∀ q p : Option PyVal, qFloatOf q = Option.none ∨ pFloatOf p = Option.none →
      occQP q p = (0, 0)) ∧
    pFloatOf (some (.str "5")) = some 5 ∧
    occQP (some (.str "abc")) (some (.str "5")) = (0, 0) ∧
    get_normalized_dict [⟨"x", some (.str "abc"), some (.str "5")⟩] =
      [("x", ⟨0, "x", 0⟩)] :=
  ⟨occQP_fail,
   by with_unfolding_all decide,
   by with_unfolding_all decide,
   by with_unfolding_all decide⟩

/-- Witness for C10 at a concrete input: a null quantity with a perfectly
parsable price still contributes `(0, 0)`. -/
theorem C10_joint_quantity_price_parse_witness :
    (qFloatOf (some PyVal.null) = Option.none ∨
      pFloatOf (some (.num 1)) = Option.none) ∧
    occQP (some PyVal.null) (some (.num 1)) = (0, 0) :=
  ⟨Or.inl (by decide),
   C10_joint_quantity_price_parse.1 _ _ (Or.inl (by decide))⟩

/-- Claim **C1 counterexample**: the claim fails on the code in two ways.  The
match summary parses the document totals without a guard, so an invoice
total of `"abc"` raises (modelled by `Option.none`) instead of degrading
to `0.0`; and per-item quantities get no comma replacement, so quantity
`"1,50"` parses to `0`, not `1.5`. -/
theorem C1_counterexample :
    generate_match_summary invTotAbc docEmpty = Option.none ∧
    qFloatOf (some (.str "1,50")) = Option.none ∧
    occQP (some (.str "1,50")) (some (.num 2)) = (0, 0) := by
  refine ⟨by with_unfolding_all decide, by decide, by with_unfolding_all decide⟩

/-- Claim **C1 (amended)**: per-item numeric parsing is total — any parse
failure degrades the occurrence to `(0, 0)` — and so is the display-path
total parse, with the comma→period replacement applied to prices and
display totals but **not** to quantities; the match-summary total parse,
however, is unguarded, so an unparsable `total` raises out of
`generate_match_summary` instead of degrading to `0.0`. -/
theorem C1_numeric_parsing_amended :
    (∀ q p : Option PyVal, qFloatOf q = Option.none ∨ pFloatOf p = Option.none →
      occQP q p = (0, 0)) ∧
    (∀ q p : Option PyVal, ∀ a b : ℚ, qFloatOf q = some a → pFloatOf p = some b →
      occQP q p = (a, b)) ∧
    (∀ inv po : Doc, totalParse inv.total = Option.none →
      generate_match_summary inv po = Option.none) ∧
    occQP (some (.str "1.5")) (some (.str "1,50")) = (mkRat 3 2, mkRat 3 2) ∧
    occQP (some PyVal.null) (some PyVal.null) = (0, 0) ∧
    occQP Option.none Option.none = (0, 0) ∧
    display_total_float (some (.str "1,50")) = mkRat 3 2 ∧
    display_total_float (some PyVal.null) = 0 ∧
    display_total_float Option.none = 0 ∧
    display_total_float (some (.str "abc")) = 0 :=
  ⟨occQP_fail, occQP_ok, gms_none_of_bad_total,
   by with_unfolding_all decide, by with_unfolding_all decide,
   by with_unfolding_all decide, by with_unfolding_all decide,
   by with_unfolding_all decide, by with_unfolding_all decide,
   by with_unfolding_all decide⟩

/-- Witness for C1 (amended) at concrete inputs: a fully parsable
occurrence keeps both values, and the unguarded summary total parse
raises on `"abc"`. -/
theorem C1_numeric_parsing_amended_witness :
    (qFloatOf (some (.str "2")) = some 2 ∧ pFloatOf (some (.str "3")) = some 3 ∧
      occQP (some (.str "2")) (some (.str "3")) = (2, 3)) ∧
    (totalParse invTotAbc.total = Option.none ∧
      generate_match_summary invTotAbc docEmpty = Option.none) :=
  ⟨⟨by with_unfolding_all decide, by with_unfolding_all decide,
    C1_numeric_parsing_amended.2.1 _ _ 2 3
      (by with_unfolding_all decide) (by with_unfolding_all decide)⟩,
   ⟨by decide, C1_numeric_parsing_amended.2.2.1 invTotAbc docEmpty (by decide)⟩⟩

/-- Claim **C7**: the PO-number check yields a Match iff the trimmed PO-number
strings agree and neither equals `"N/A"` (a missing PO number being read
as `"N/A"`), and in every other case — including both sides `"N/A"` — a
Mismatch that escalates the overall status to NeedsReview. -/
theorem C7_po_number_check (inv po : Doc) (fs : List Finding) (st : Status)
    (h : generate_match_summary inv po = some (fs, st)) :
    poNumberFinding inv.po_no po.po_no ∈ fs ∧
    ((poNumberFinding inv.po_no po.po_no).severity = .Match ↔
      (poNoNorm inv.po_no = poNoNorm po.po_no ∧ poNoNorm inv.po_no ≠ "N/A" ∧
       poNoNorm po.po_no ≠ "N/A")) ∧
    ((poNumberFinding inv.po_no po.po_no).severity ≠ .Match →
      (poNumberFinding inv.po_no po.po_no).severity = .Mismatch ∧ st = .NeedsReview) := by
  obtain ⟨it, pt, hi, hp, hfs, hst⟩ := gms_some_elim inv po fs st h
  have hmem : poNumberFinding inv.po_no po.po_no ∈ fs := by
    rw [hfs]
    exact List.mem_cons_self _ _
  refine ⟨hmem, ?_, ?_⟩
  · unfold poNumberFinding
    by_cases hc : poNoNorm inv.po_no = poNoNorm po.po_no ∧ poNoNorm inv.po_no ≠ "N/A"
    · rw [if_pos hc]
      constructor
      · intro _
        exact ⟨hc.1, hc.2, hc.1 ▸ hc.2⟩
      · intro _
        rfl
    · rw [if_neg hc]
      constructor
      · intro hcon
        cases hcon
      · intro hr
        exact absurd ⟨hr.1, hr.2.1⟩ hc
  · intro hne
    have hsev : (poNumberFinding inv.po_no po.po_no).severity = .Mismatch := by
      unfold poNumberFinding at hne ⊢
      by_cases hc : poNoNorm inv.po_no = poNoNorm po.po_no ∧ poNoNorm inv.po_no ≠ "N/A"
      · rw [if_pos hc] at hne
        exact absurd rfl hne
      · rw [if_neg hc]
    exact ⟨hsev, by rw [hst]; exact statusOf_needsReview_of_mismatch fs _ hmem hsev⟩

/-- Witness for C7 at a concrete input: PO numbers `"A"` vs `"B"`
mismatch and force NeedsReview. -/
theorem C7_po_number_check_witness :
    generate_match_summary invPoMis poPoMis =
      some ([⟨.PoNumber, .Mismatch, ""⟩, ⟨.Vendor, .Match, ""⟩, ⟨.Total, .Match, ""⟩],
            .NeedsReview) ∧
    (poNumberFinding invPoMis.po_no poPoMis.po_no ∈
        ([⟨.PoNumber, .Mismatch, ""⟩, ⟨.Vendor, .Match, ""⟩, ⟨.Total, .Match, ""⟩] :
          List Finding) ∧
      ((poNumberFinding invPoMis.po_no poPoMis.po_no).severity = .Match ↔
        (poNoNorm invPoMis.po_no = poNoNorm poPoMis.po_no ∧
         poNoNorm invPoMis.po_no ≠ "N/A" ∧ poNoNorm poPoMis.po_no ≠ "N/A")) ∧
      ((poNumberFinding invPoMis.po_no poPoMis.po_no).severity ≠ .Match →
        (poNumberFinding invPoMis.po_no poPoMis.po_no).severity = .Mismatch ∧
          Status.NeedsReview = .NeedsReview)) :=
  ⟨by with_unfolding_all decide,
   C7_po_number_check invPoMis poPoMis
     [⟨.PoNumber, .Mismatch, ""⟩, ⟨.Vendor, .Match, ""⟩, ⟨.Total, .Match, ""⟩]
     .NeedsReview (by with_unfolding_all decide)⟩

/-- Claim **C8**: for a key present on both sides, an excess of more than
0.001 in the invoice quantity yields an ItemQuantity Mismatch and
NeedsReview; a shortfall of more than 0.001 yields an ItemQuantity
Warning, and the status is Approved exactly when no mismatch-severity
finding exists — warnings alone never change it. -/
theorem C8_quantity_tolerance (inv po : Doc) (fs : List Finding) (st : Status)
    (h : generate_match_summary inv po = some (fs, st))
    (k : String) (hki : k ∈ docKeys inv) (hkp : k ∈ docKeys po) :
    (docQty po k + mkRat 1 1000 < docQty inv k →
      (⟨.ItemQuantity, .Mismatch, k⟩ : Finding) ∈ fs ∧ st = .NeedsReview) ∧
    (docQty inv k < docQty po k - mkRat 1 1000 →
      (⟨.ItemQuantity, .Warning, k⟩ : Finding) ∈ fs) ∧
    (st = .Approved ↔ ∀ f ∈ fs, f.severity ≠ .Mismatch) := by
  obtain ⟨it, pt, hi, hp, hfs, hst⟩ := gms_some_elim inv po fs st h
  unfold docKeys at hki hkp
  obtain ⟨p, hpmem, hpk⟩ := List.mem_map.mp hki
  obtain ⟨pe, hpe⟩ := (lookupE_isSome_iff (get_normalized_dict po.items) k).mpr hkp
  have hmemk : (k, p.2) ∈ get_normalized_dict inv.items := by
    rw [← hpk]
    exact hpmem
  have hinvq : docQty inv k = p.2.quantity := by
    unfold docQty
    rw [lookupE_of_mem _ (gnd_keys_nodup _) _ _ hmemk]
    rfl
  have hpoq : docQty po k = pe.quantity := by
    unfold docQty
    rw [hpe]
    rfl
  have hfmem : itemFinding (get_normalized_dict po.items) k p.2 ∈ fs := by
    rw [hfs]
    refine List.mem_cons_of_mem _ (List.mem_cons_of_mem _ (List.mem_cons_of_mem _ ?_))
    have hm : itemFinding (get_normalized_dict po.items) p.1 p.2 ∈
        List.map (fun q => itemFinding (get_normalized_dict po.items) q.1 q.2)
          (get_normalized_dict inv.items) :=
      List.mem_map_of_mem _ hpmem
    rwa [hpk] at hm
  refine ⟨?_, ?_, by rw [hst]; exact statusOf_approved_iff fs⟩
  · intro hgt
    rw [hinvq, hpoq] at hgt
    have hform : itemFinding (get_normalized_dict po.items) k p.2 =
        ⟨.ItemQuantity, .Mismatch, k⟩ := by
      unfold itemFinding
      rw [hpe]
      dsimp only
      rw [if_pos hgt]
    exact ⟨hform ▸ hfmem,
           by rw [hst]; exact statusOf_needsReview_of_mismatch fs _ (hform ▸ hfmem) rfl⟩
  · intro hlt
    rw [hinvq, hpoq] at hlt
    have heps : (0 : ℚ) < mkRat 1 1000 := by
      rw [Rat.mkRat_eq_div]
      norm_num
    have hcond1 : ¬ (pe.quantity + mkRat 1 1000 < p.2.quantity) := by
      intro hc
      linarith
    have hform : itemFinding (get_normalized_dict po.items) k p.2 =
        ⟨.ItemQuantity, .Warning, k⟩ := by
      unfold itemFinding
      rw [hpe]
      dsimp only
      rw [if_neg hcond1, if_pos hlt]
    exact hform ▸ hfmem

/-- Witness for C8 at a concrete input: invoice 15 Widgets against a PO
of 10 trips the +0.001 tolerance and forces NeedsReview. -/
theorem C8_quantity_tolerance_witness :
    generate_match_summary invOver poOver =
      some ([⟨.PoNumber, .Match, ""⟩, ⟨.Vendor, .Match, ""⟩, ⟨.Total, .Match, ""⟩,
             ⟨.ItemQuantity, .Mismatch, "widget"⟩], .NeedsReview) ∧
    "widget" ∈ docKeys invOver ∧ "widget" ∈ docKeys poOver ∧
    docQty poOver "widget" + mkRat 1 1000 < docQty invOver "widget" ∧
    ((⟨.ItemQuantity, .Mismatch, "widget"⟩ : Finding) ∈
      ([⟨.PoNumber, .Match, ""⟩, ⟨.Vendor, .Match, ""⟩, ⟨.Total, .Match, ""⟩,
        ⟨.ItemQuantity, .Mismatch, "widget"⟩] : List Finding) ∧
      Status.NeedsReview = .NeedsReview) :=
  ⟨by with_unfolding_all decide, by with_unfolding_all decide,
   by with_unfolding_all decide, by with_unfolding_all decide,
   (C8_quantity_tolerance invOver poOver
     [⟨.PoNumber, .Match, ""⟩, ⟨.Vendor, .Match, ""⟩, ⟨.Total, .Match, ""⟩,
      ⟨.ItemQuantity, .Mismatch, "widget"⟩] .NeedsReview
     (by with_unfolding_all decide) "widget"
     (by with_unfolding_all decide) (by with_unfolding_all decide)).1
     (by with_unfolding_all decide)⟩

/-- Claim **C9**: per-item reporting is asymmetric — every invoice key missing
from the PO yields an UnmatchedItem mismatch that escalates the status,
while a PO-only key yields no item finding at all. -/
theorem C9_asymmetric_item_reporting (inv po : Doc) (fs : List Finding) (st : Status)
    (h : generate_match_summary inv po = some (fs, st)) :
    (∀ k, k ∈ docKeys inv → k ∉ docKeys po →
      (⟨.UnmatchedItem, .Mismatch, k⟩ : Finding) ∈ fs ∧ st = .NeedsReview) ∧
    (∀ k, k ∈ docKeys po → k ∉ docKeys inv →
      ∀ f ∈ fs, (f.category = .ItemQuantity ∨ f.category = .UnmatchedItem ∨
        f.category = .ItemLineTotal) → f.key ≠ k) := by
  obtain ⟨it, pt, hi, hp, hfs, hst⟩ := gms_some_elim inv po fs st h
  constructor
  · intro k hki hkp
    unfold docKeys at hki hkp
    obtain ⟨p, hpmem, hpk⟩ := List.mem_map.mp hki
    have hnone : lookupE (get_normalized_dict po.items) k = Option.none :=
      lookupE_eq_none_of_not_mem _ _ hkp
    have hform : itemFinding (get_normalized_dict po.items) k p.2 =
        ⟨.UnmatchedItem, .Mismatch, k⟩ := by
      unfold itemFinding
      rw [hnone]
    have hfmem : itemFinding (get_normalized_dict po.items) k p.2 ∈ fs := by
      rw [hfs]
      refine List.mem_cons_of_mem _ (List.mem_cons_of_mem _ (List.mem_cons_of_mem _ ?_))
      have hm : itemFinding (get_normalized_dict po.items) p.1 p.2 ∈
          List.map (fun q => itemFinding (get_normalized_dict po.items) q.1 q.2)
            (get_normalized_dict inv.items) :=
        List.mem_map_of_mem _ hpmem
      rwa [hpk] at hm
    exact ⟨hform ▸ hfmem,
           by rw [hst]; exact statusOf_needsReview_of_mismatch fs _ (hform ▸ hfmem) rfl⟩
  · intro k hkp hki f hf hcat hkey
    rcases gms_mem_category inv po fs st h f hf with h1 | h1 | h1 | ⟨h2, hkeymem⟩
    · rcases hcat with hc | hc | hc <;> rw [h1] at hc <;> cases hc
    · rcases hcat with hc | hc | hc <;> rw [h1] at hc <;> cases hc
    · rcases hcat with hc | hc | hc <;> rw [h1] at hc <;> cases hc
    · apply hki
      rw [← hkey]
      exact hkeymem

/-- Witness for C9 at a concrete input: invoice-only item `"widget"` is
flagged as unmatched and escalates; PO-only item `"gadget"` produces no
item finding. -/
theorem C9_asymmetric_item_reporting_witness :
    generate_match_summary invOnly poOnly =
      some ([⟨.PoNumber, .Match, ""⟩, ⟨.Vendor, .Match, ""⟩, ⟨.Total, .Match, ""⟩,
             ⟨.UnmatchedItem, .Mismatch, "widget"⟩], .NeedsReview) ∧
    "widget" ∈ docKeys invOnly ∧ "widget" ∉ docKeys poOnly ∧
    ((⟨.UnmatchedItem, .Mismatch, "widget"⟩ : Finding) ∈
      ([⟨.PoNumber, .Match, ""⟩, ⟨.Vendor, .Match, ""⟩, ⟨.Total, .Match, ""⟩,
        ⟨.UnmatchedItem, .Mismatch, "widget"⟩] : List Finding) ∧
      Status.NeedsReview = .NeedsReview) ∧
    "gadget" ∈ docKeys poOnly ∧ "gadget" ∉ docKeys invOnly ∧
    (∀ f ∈ ([⟨.PoNumber, .Match, ""⟩, ⟨.Vendor, .Match, ""⟩, ⟨.Total, .Match, ""⟩,
             ⟨.UnmatchedItem, .Mismatch, "widget"⟩] : List Finding),
      (f.category = .ItemQuantity ∨ f.category = .UnmatchedItem ∨
        f.category = .ItemLineTotal) → f.key ≠ "gadget") :=
  ⟨by with_unfolding_all decide, by with_unfolding_all decide,
   by with_unfolding_all decide,
   (C9_asymmetric_item_reporting invOnly poOnly
     [⟨.PoNumber, .Match, ""⟩, ⟨.Vendor, .Match, ""⟩, ⟨.Total, .Match, ""⟩,
      ⟨.UnmatchedItem, .Mismatch, "widget"⟩] .NeedsReview
     (by with_unfolding_all decide)).1 "widget"
     (by with_unfolding_all decide) (by with_unfolding_all decide),
   by with_unfolding_all decide, by with_unfolding_all decide,
   (C9_asymmetric_item_reporting invOnly poOnly
     [⟨.PoNumber, .Match, ""⟩, ⟨.Vendor, .Match, ""⟩, ⟨.Total, .Match, ""⟩,
      ⟨.UnmatchedItem, .Mismatch, "widget"⟩] .NeedsReview
     (by with_unfolding_all decide)).2 "gadget"
     (by with_unfolding_all decide) (by with_unfolding_all decide)⟩

/-- Claim **C2 counterexample**: invoice 5×100 (accumulated line total 500)
against PO 10×1 (line total 10) on the same key is a partial-shipment
case whose invoice line total exceeds the PO line total by far more than
0.01, yet the engine emits only a quantity warning — no `ItemLineTotal`
finding — and approves. -/
theorem C2_counterexample :
    specLineTotal invPart.items "x" = 500 ∧
    specLineTotal poPart.items "x" = 10 ∧
    docQty invPart "x" < docQty poPart "x" ∧
    generate_match_summary invPart poPart =
      some ([⟨.PoNumber, .Match, ""⟩, ⟨.Vendor, .Match, ""⟩, ⟨.Total, .Match, ""⟩,
             ⟨.ItemQuantity, .Warning, "x"⟩], .Approved) := by
  refine ⟨by with_unfolding_all decide, by with_unfolding_all decide,
          by with_unfolding_all decide, by with_unfolding_all decide⟩

/-- Claim **C2 (amended)**: the engine implements only the lenient variant —
it never accumulates or compares line totals, and no finding of category
`ItemLineTotal` is ever produced. -/
theorem C2_no_item_line_total (inv po : Doc) (fs : List Finding) (st : Status)
    (h : generate_match_summary inv po = some (fs, st)) :
    ∀ f ∈ fs, f.category ≠ .ItemLineTotal := by
  intro f hf hcat
  rcases gms_mem_category inv po fs st h f hf with h1 | h1 | h1 | ⟨h1 | h1, _⟩ <;>
    rw [hcat] at h1 <;> cases h1

/-- Witness for C2 (amended) at a concrete input. -/
theorem C2_no_item_line_total_witness :
    generate_match_summary invPart poPart =
      some ([⟨.PoNumber, .Match, ""⟩, ⟨.Vendor, .Match, ""⟩, ⟨.Total, .Match, ""⟩,
             ⟨.ItemQuantity, .Warning, "x"⟩], .Approved) ∧
    ∀ f ∈ ([⟨.PoNumber, .Match, ""⟩, ⟨.Vendor, .Match, ""⟩, ⟨.Total, .Match, ""⟩,
            ⟨.ItemQuantity, .Warning, "x"⟩] : List Finding), f.category ≠ .ItemLineTotal :=
  ⟨by with_unfolding_all decide,
   C2_no_item_line_total invPart poPart
     [⟨.PoNumber, .Match, ""⟩, ⟨.Vendor, .Match, ""⟩, ⟨.Total, .Match, ""⟩,
      ⟨.ItemQuantity, .Warning, "x"⟩] .Approved (by with_unfolding_all decide)⟩

/-- Claim **C4**: for every input sequence of raw items, the quantity of each
aggregated item equals the sum of the parsed quantities of all raw items
whose description maps to that item's key, and the distinct keys appear
in the output in first-occurrence order. -/
theorem C4_aggregate_quantity_and_order (items : List RawItem) :
    (∀ p ∈ get_normalized_dict items, p.2.quantity = keyQtySum items p.1) ∧
    keysOf (get_normalized_dict items) = firstSeen (keptKeys items) := by
  refine ⟨?_, keysOf_gnd items⟩
  intro p hp
  obtain ⟨k, e⟩ := p
  have hl : lookupE (get_normalized_dict items) k = some e :=
    lookupE_of_mem _ (gnd_keys_nodup items) _ _ hp
  have hq := qtyOf_foldl items [] k
  rw [show items.foldl aggStep [] = get_normalized_dict items from rfl] at hq
  unfold qtyOf at hq
  rw [hl] at hq
  simpa [lookupE, entry0] using hq

/-- Witness for C4 at a concrete input: `"Culture X"` quantity 1 and
`"culture x"` quantity 3 aggregate into one cell of quantity 4 under key
`"x"`. -/
theorem C4_aggregate_quantity_and_order_witness :
    (("x", (⟨4, "Culture X", 2⟩ : Entry)) ∈
      get_normalized_dict [⟨"Culture X", some (.num 1), some (.num 2)⟩,
                           ⟨"culture x", some (.num 3), some (.num 0)⟩]) ∧
    (⟨4, "Culture X", 2⟩ : Entry).quantity =
      keyQtySum [⟨"Culture X", some (.num 1), some (.num 2)⟩,
                 ⟨"culture x", some (.num 3), some (.num 0)⟩] "x" ∧
    keysOf (get_normalized_dict [⟨"Culture X", some (.num 1), some (.num 2)⟩,
                                 ⟨"culture x", some (.num 3), some (.num 0)⟩]) =
      firstSeen (keptKeys [⟨"Culture X", some (.num 1), some (.num 2)⟩,
                           ⟨"culture x", some (.num 3), some (.num 0)⟩]) :=
  ⟨by with_unfolding_all decide,
   (C4_aggregate_quantity_and_order _).1 ("x", ⟨4, "Culture X", 2⟩)
     (by with_unfolding_all decide),
   (C4_aggregate_quantity_and_order _).2⟩

/-- Claim **C6**: for every group of raw items sharing a key, the aggregated
price is the last positive parsed price among the group's occurrences in
input order (`0` when there is none); a non-positive parsed price never
overwrites a stored positive one. -/
theorem C6_last_positive_price_wins (items : List RawItem) :
    ∀ p ∈ get_normalized_dict items, p.2.price = (lastPosP p.1 items).getD 0 := by
  intro p hp
  obtain ⟨k, e⟩ := p
  have hl : lookupE (get_normalized_dict items) k = some e :=
    lookupE_of_mem _ (gnd_keys_nodup items) _ _ hp
  have hq := priceOf_foldl items [] k
  rw [show items.foldl aggStep [] = get_normalized_dict items from rfl] at hq
  unfold priceOf at hq
  rw [hl] at hq
  simpa [lookupE, entry0] using hq

/-! ### C5: key normalization -/

theorem stripL_cult_append (x : List Char) : stripL (cultPre ++ x) = cultPre ++ x := by
  have hc : cultPre = 'c' :: "ulture ".data := by decide
  rw [hc, List.cons_append]
  unfold stripL
  rw [List.dropWhile_cons]
  simp [isSpaceC]

theorem stripR_append_of_ne (x y : List Char) (h : stripR y ≠ []) :
    stripR (x ++ y) = x ++ stripR y := by
  have h2 : y.reverse.dropWhile isSpaceC ≠ [] := by
    intro hc
    apply h
    unfold stripR
    rw [hc]
    rfl
  unfold stripR
  rw [List.reverse_append, List.dropWhile_append]
  rw [if_neg (by simpa [List.isEmpty_iff] using h2)]
  rw [List.reverse_append, List.reverse_reverse]

theorem lowerL_cultPre : lowerL cultPre = cultPre := by decide

/-- Claim **C5 counterexample**: the strings `"culture culture x"` and `"culture x"`
differ only by a leading literal `"culture "` prefix, yet their keys
differ (`"culture x"` vs `"x"`), so the two are aggregated as distinct
items. -/
theorem C5_counterexample :
    "culture culture x" = "culture " ++ "culture x" ∧
    itemKeyS "culture culture x" = "culture x" ∧
    itemKeyS "culture x" = "x" ∧
    itemKeyS "culture culture x" ≠ itemKeyS "culture x" ∧
    (get_normalized_dict [⟨"culture culture x", some (.num 1), some (.num 1)⟩,
                          ⟨"culture x", some (.num 1), some (.num 1)⟩]).length = 2 := by
  refine ⟨rfl, by decide, by decide, by decide, by with_unfolding_all decide⟩

/-- Claim **C5 (amended)**: descriptions equal after trimming and lowercasing
get identical keys; and prepending a single `"culture "` prefix to a
description with no leading whitespace, a non-blank trimmed form, and
whose trimmed lowercased form does not already start with `"culture "`,
leaves the key unchanged. -/
theorem C5_key_normalization_amended :
    (∀ d₁ d₂ : String, lowerL (stripC d₁.data) = lowerL (stripC d₂.data) →
      itemKeyS d₁ = itemKeyS d₂) ∧
    (∀ d : String, stripL d.data = d.data → stripC d.data ≠ [] →
      cultPre.isPrefixOf (lowerL (stripC d.data)) = false →
      itemKeyS ("culture " ++ d) = itemKeyS d) := by
  constructor
  · intro d₁ d₂ h
    have hk : itemKeyL d₁.data = itemKeyL d₂.data := by
      unfold itemKeyL
      rw [h]
    exact congrArg String.mk hk
  · intro d hfree hne hpre
    have hdata : ("culture " ++ d).data = cultPre ++ d.data := rfl
    have hsc : stripC d.data = stripR d.data := by
      unfold stripC
      rw [hfree]
    have hR : stripR d.data ≠ [] := by
      rw [← hsc]
      exact hne
    have h1 : stripC (("culture " ++ d).data) = cultPre ++ stripR d.data := by
      rw [hdata]
      unfold stripC
      rw [stripL_cult_append, stripR_append_of_ne _ _ hR]
    have h2 : lowerL (stripC (("culture " ++ d).data)) =
        cultPre ++ lowerL (stripR d.data) := by
      unfold lowerL
      rw [h1, List.map_append]
      rw [show List.map lowChar cultPre = cultPre from lowerL_cultPre]
    have h3 : cultPre.isPrefixOf (cultPre ++ lowerL (stripR d.data)) = true := by
      rw [List.isPrefixOf_iff_prefix]
      exact List.prefix_append _ _
    have h4 : itemKeyL (("culture " ++ d).data) = lowerL (stripR d.data) := by
      unfold itemKeyL
      rw [h2, h3, if_pos rfl]
      have hlen : cultPre.length = 8 := by decide
      rw [← hlen, List.drop_left]
    have h5 : itemKeyL d.data = lowerL (stripR d.data) := by
      unfold itemKeyL
      rw [hsc] at hpre ⊢
      rw [hpre]
      simp
    exact congrArg String.mk (h4.trans h5.symm)

/-- Witness for C5 (amended) at concrete inputs: `" Widget "` and
`"widget"` share a key, and `"culture Widget"` keeps the key of
`"Widget"`. -/
theorem C5_key_normalization_amended_witness :
    (lowerL (stripC " Widget ".data) = lowerL (stripC "widget".data) ∧
      itemKeyS " Widget " = itemKeyS "widget") ∧
    (stripL "Widget".data = "Widget".data ∧ stripC "Widget".data ≠ [] ∧
      cultPre.isPrefixOf (lowerL (stripC "Widget".data)) = false ∧
      itemKeyS ("culture " ++ "Widget") = itemKeyS "Widget") :=
  ⟨⟨by decide, C5_key_normalization_amended.1 " Widget " "widget" (by decide)⟩,
   ⟨by decide, by decide, by decide,
    C5_key_normalization_amended.2 "Widget" (by decide) (by decide) (by decide)⟩⟩

/-- Witness for C6 at a concrete input: prices 5, 7, then 0 for the same
key leave the stored price at 7 — the last positive one. -/
theorem C6_last_positive_price_wins_witness :
    (("x", (⟨3, "x", 7⟩ : Entry)) ∈
      get_normalized_dict [⟨"x", some (.num 1), some (.num 5)⟩,
                           ⟨"x", some (.num 1), some (.num 7)⟩,
                           ⟨"x", some (.num 1), some (.num 0)⟩]) ∧
    (⟨3, "x", 7⟩ : Entry).price =
      (lastPosP "x" [⟨"x", some (.num 1), some (.num 5)⟩,
                     ⟨"x", some (.num 1), some (.num 7)⟩,
                     ⟨"x", some (.num 1), some (.num 0)⟩]).getD 0 :=
  ⟨by with_unfolding_all decide,
   C6_last_positive_price_wins _ ("x", ⟨3, "x", 7⟩) (by with_unfolding_all decide)⟩

end InvoicePO
